import Mathlib

/-
Verification of the NlxVideoTransm media relay servers.

The repository contains three single-client streaming servers:
  - src/video_stream/server.cpp   (V4L2 camera, JPEG frames over TCP)
  - src/audio_stream/server.cpp   (ALSA capture, raw PCM over TCP)
  - src/unnamed/part_000          (Makefile + a PortAudio capture server)
  - src/audio_stream/main.cpp     (PortAudio capture server, same handler)

Below, each loop body and each accept handler is embedded as an executable
Lean function.  Blocking I/O results (capture reads, send return values,
accepted file descriptors) are inputs supplied per iteration by an
environment record; the functions compute exactly the control flow the C++
performs on those results.  The detached threads of the servers are modelled
as labelled transition systems over an explicit server state; one label is
one loop iteration of one thread (the region between two blocking calls),
and file descriptors are allocated freshly by a counter.
-/

namespace NlxVideoTransm

/-! ## POSIX constants (Linux values used by the sources) -/

def EPIPE : Nat := 32
def EOVERFLOW : Nat := 75
def EAGAIN : Nat := 11
def EWOULDBLOCK : Nat := 11
def EBADF : Nat := 9
def O_NONBLOCK : Nat := 2048

/-! ## Video wire format (video_stream/server.cpp lines 82-96)

`uint32_t size = htonl(buffer.size());` stores the low 32 bits of the
payload length in big-endian byte order; the frame message is that 4-byte
header followed by the JPEG payload. -/

/-- Big-endian bytes of the low 32 bits of `n`, as `htonl` on a `uint32_t`
produces them (video_stream/server.cpp line 86). -/
def htonl32 (n : Nat) : List Nat :=
  [n % 4294967296 / 16777216, n % 16777216 / 65536, n % 65536 / 256, n % 256]

/-- Big-endian decoding of a byte list, as a receiver of the video stream
decodes the 4-byte length field. -/
def decodeBE32 (bs : List Nat) : Nat :=
  bs.foldl (fun acc b => acc * 256 + b) 0

/-- One frame as written to the socket when both sends succeed:
4-byte big-endian length, then the payload
(video_stream/server.cpp lines 86-96). -/
def frameMessage (payload : List Nat) : List Nat :=
  htonl32 payload.length ++ payload

/-! ## Video forwarding loop body (video_stream/server.cpp lines 62-97)

The loop body runs while `running && client_socket == current_client`;
the guard is part of the server model below.  Per iteration the
environment supplies the capture result (`cap.read` + `imencode`, fused
into the encoded payload, `none` for a failed/empty read) and whether
each of the two `send` calls succeeds. -/

structure VidCfg where
  width : Nat
  height : Nat
  snapw : Nat
  snaph : Nat
deriving DecidableEq

/-- State shared by the video forwarding loop: the snapshot flag written by
the serial thread (line 42, cleared at line 72) and the capture device's
configured resolution (`cap.set` calls, lines 66-67 and 73-74). -/
structure VidState where
  snapshot : Bool
  capW : Nat
  capH : Nat
deriving DecidableEq

structure VidEvent where
  capOut : Option (List Nat)
  sendSizeOk : Bool
  sendDataOk : Bool
deriving DecidableEq

inductive LoopCtl
  | cont
  | broke
deriving DecidableEq

/-- Result of one iteration of a forwarding loop: updated shared state,
whether the loop `break`s, the frames captured (tagged `true` when captured
in the snapshot branch) and the chunks passed to successful `send` calls. -/
structure VidIterOut where
  state : VidState
  ctl : LoopCtl
  frames : List (Bool × List Nat)
  chunks : List (List Nat)
deriving DecidableEq

/-- The two `send` calls of lines 86-96: first the 4-byte size, then the
payload; either failing `break`s the loop. -/
def vidSend (payload : List Nat) (ev : VidEvent) : LoopCtl × List (List Nat) :=
  if ev.sendSizeOk then
    if ev.sendDataOk then (LoopCtl.cont, [htonl32 payload.length, payload])
    else (LoopCtl.broke, [htonl32 payload.length])
  else (LoopCtl.broke, [])

/-- One iteration of `handle_client`'s loop body (lines 63-97).  In the
snapshot branch the capture is reconfigured to `snapw`x`snaph` (lines
66-67); on a successful read the flag is cleared and the resolution
restored (lines 72-74); a failed read `break`s with the flag still set and
the resolution not restored (lines 68-71). -/
def vidIter (cfg : VidCfg) (s : VidState) (ev : VidEvent) : VidIterOut :=
  if s.snapshot then
    match ev.capOut with
    | none =>
      { state := { s with capW := cfg.snapw, capH := cfg.snaph },
        ctl := LoopCtl.broke, frames := [], chunks := [] }
    | some b =>
      let s2 : VidState := { snapshot := false, capW := cfg.width, capH := cfg.height }
      let r := vidSend b ev
      { state := s2, ctl := r.1, frames := [(true, b)], chunks := r.2 }
  else
    match ev.capOut with
    | none => { state := s, ctl := LoopCtl.broke, frames := [], chunks := [] }
    | some b =>
      let r := vidSend b ev
      { state := s, ctl := r.1, frames := [(false, b)], chunks := r.2 }

/-- Iterating the video loop body over a list of per-iteration environments,
stopping at the first `break`. -/
def vidRun (cfg : VidCfg) (s : VidState) : List VidEvent → VidIterOut
  | [] => { state := s, ctl := LoopCtl.cont, frames := [], chunks := [] }
  | e :: es =>
    let o := vidIter cfg s e
    match o.ctl with
    | LoopCtl.broke => o
    | LoopCtl.cont =>
      let r := vidRun cfg o.state es
      { state := r.state, ctl := r.ctl,
        frames := o.frames ++ r.frames, chunks := o.chunks ++ r.chunks }

/-- Default configuration of main (video_stream/server.cpp line 198). -/
def vidCfg0 : VidCfg := { width := 320, height := 240, snapw := 640, snaph := 480 }

/-! ## ALSA forwarding loop body (audio_stream/server.cpp lines 28-82)

`handle_client` reads `buffer_size / 2` frames per iteration with
`snd_pcm_readi` and sends `buffer_size` bytes with a non-blocking `send`.
The environment supplies the return value of the read, the block the read
filled the buffer with, and the return value / errno of the send. -/

structure AlsaEnv where
  readRet : Int
  block : List Nat
  sendRet : Int
  sendErrno : Nat
deriving DecidableEq

/-- One `send(client_socket, buffer.data(), requested, 0)` call: the length
requested and the value `send` returned. -/
structure SendCall where
  requested : Nat
  payload : List Nat
  ret : Int
deriving DecidableEq

/-- Bytes a send call actually put on the wire: none on failure, the first
`ret` bytes of the buffer otherwise (POSIX short writes included). -/
def delivered (c : SendCall) : List Nat :=
  if c.ret < 0 then [] else c.payload.take c.ret.toNat

/-- Flattened bytes delivered by a list of send calls. -/
def wireBytes (cs : List SendCall) : List Nat :=
  (cs.map delivered).flatten

structure AlsaIterOut where
  retries : Nat
  ctl : LoopCtl
  sends : List SendCall
deriving DecidableEq

/-- One iteration of the ALSA `handle_client` loop body (lines 42-77):
`-EPIPE`/`-EOVERFLOW` recover and count a retry, any other negative read
counts a retry, reaching `max_retries = 5` breaks; a read of fewer than
`buffer_size / 2` frames just `continue`s; a full read resets the counter
and sends the whole buffer, where `EAGAIN`/`EWOULDBLOCK` `continue`s,
another send error breaks, and an incomplete send is only logged. -/
def alsaStep (bufferSize : Nat) (retries : Nat) (env : AlsaEnv) : AlsaIterOut :=
  if env.readRet = -(EPIPE : Int) ∨ env.readRet = -(EOVERFLOW : Int) then
    { retries := retries + 1,
      ctl := if 5 ≤ retries + 1 then LoopCtl.broke else LoopCtl.cont,
      sends := [] }
  else if env.readRet < 0 then
    { retries := retries + 1,
      ctl := if 5 ≤ retries + 1 then LoopCtl.broke else LoopCtl.cont,
      sends := [] }
  else if env.readRet ≠ ((bufferSize / 2 : Nat) : Int) then
    { retries := retries, ctl := LoopCtl.cont, sends := [] }
  else
    let call : SendCall := { requested := bufferSize, payload := env.block, ret := env.sendRet }
    if env.sendRet < 0 then
      if env.sendErrno = EAGAIN ∨ env.sendErrno = EWOULDBLOCK then
        { retries := 0, ctl := LoopCtl.cont, sends := [call] }
      else
        { retries := 0, ctl := LoopCtl.broke, sends := [call] }
    else
      { retries := 0, ctl := LoopCtl.cont, sends := [call] }

/-- Iterating the ALSA loop body over a list of environments, stopping at
the first `break`. -/
def alsaRun (bufferSize : Nat) (retries : Nat) : List AlsaEnv → AlsaIterOut
  | [] => { retries := retries, ctl := LoopCtl.cont, sends := [] }
  | e :: es =>
    let o := alsaStep bufferSize retries e
    match o.ctl with
    | LoopCtl.broke => o
    | LoopCtl.cont =>
      let r := alsaRun bufferSize o.retries es
      { retries := r.retries, ctl := r.ctl, sends := o.sends ++ r.sends }

/-- `buffer_size` passed to `handle_client` by main
(audio_stream/server.cpp line 159). -/
def alsaDefaultBufferSize : Nat := 1024 * 2

/-- The `fcntl(fd, F_SETFL, fcntl(fd, F_GETFL) | O_NONBLOCK)` applied to the
client socket at audio_stream/server.cpp line 36. -/
def fcntlSetNonblock (flags : Nat) : Nat := flags ||| O_NONBLOCK

/-- Flags of the client socket after `handle_client`'s setup. -/
def alsaClientSetup (origFlags : Nat) : Nat := fcntlSetNonblock origFlags

/-- Environment for a short capture read of `n` frames that filled the
buffer with `b` (taken with `n` below `buffer_size / 2`). -/
def shortEnv (n : Nat) (b : List Nat) : AlsaEnv :=
  { readRet := (n : Int), block := b, sendRet := 0, sendErrno := 0 }

/-- Environment for a capture read error other than overflow. -/
def errEnv : AlsaEnv :=
  { readRet := -5, block := [], sendRet := 0, sendErrno := 0 }

/-- Environment for a full read whose non-blocking send would block. -/
def eagainEnv (bufferSize : Nat) (b : List Nat) : AlsaEnv :=
  { readRet := ((bufferSize / 2 : Nat) : Int), block := b, sendRet := -1, sendErrno := EAGAIN }

/-- Environment for a full read delivered completely by send. -/
def fullOkEnv (bufferSize : Nat) (b : List Nat) : AlsaEnv :=
  { readRet := ((bufferSize / 2 : Nat) : Int), block := b,
    sendRet := (bufferSize : Int), sendErrno := 0 }

/-! ## PortAudio forwarding loop body
(src/unnamed/part_000 lines 53-82, audio_stream/main.cpp lines 28-57)

`handle_client` reads `FRAMES_PER_BUFFER` frames and sends
`FRAMES_PER_BUFFER * sizeof(int16_t)` bytes; a read error or a negative
send return breaks the loop. -/

def FRAMES_PER_BUFFER : Nat := 1024

structure PaEnv where
  readOk : Bool
  block : List Nat
  sendRet : Int
deriving DecidableEq

/-- One iteration of the PortAudio `handle_client` loop body. -/
def paStep (env : PaEnv) : LoopCtl × List SendCall :=
  if env.readOk then
    let call : SendCall :=
      { requested := FRAMES_PER_BUFFER * 2, payload := env.block, ret := env.sendRet }
    if env.sendRet < 0 then (LoopCtl.broke, [call]) else (LoopCtl.cont, [call])
  else (LoopCtl.broke, [])

/-- Iterating the PortAudio loop body, stopping at the first `break`. -/
def paRun : List PaEnv → LoopCtl × List SendCall
  | [] => (LoopCtl.cont, [])
  | e :: es =>
    let o := paStep e
    match o.1 with
    | LoopCtl.broke => o
    | LoopCtl.cont =>
      let r := paRun es
      (r.1, o.2 ++ r.2)

/-! ## ALSA server transition system (audio_stream/server.cpp lines 319-350)

The accept loop keeps one `static std::thread client_thread`; after every
spawn it calls `client_thread.detach()` (line 349), so `joinable` is false
whenever the loop tests it at line 340.  Each accepted socket gets a
detached `handle_client` thread whose loop condition is only
`while (running)`.  One label of the transition system is either a
successful accept or one loop iteration of one handler thread; fds are
allocated freshly by a counter (the OS cannot reuse a number while the old
socket is still open). -/

structure AlsaSession where
  sock : Nat
  alive : Bool
  retries : Nat
deriving DecidableEq

structure AlsaServer where
  nextFd : Nat
  joinable : Bool
  running : Bool
  sessions : List AlsaSession
  closes : List Nat
  sends : List (Nat × List Nat)
deriving DecidableEq

def alsaServerInit : AlsaServer :=
  { nextFd := 0, joinable := false, running := true, sessions := [], closes := [], sends := [] }

/-- The supersede branch of lines 340-345: set `running = false`, join the
previous thread (its loop exits and it closes its own socket, line 80),
then set `running = true` again.  The branch is guarded by
`client_thread.joinable()`, which `detach()` has made false. -/
def alsaJoinPrev (s : AlsaServer) : AlsaServer :=
  match s.sessions with
  | [] => s
  | prev :: rest =>
    if prev.alive then
      { s with sessions := { prev with alive := false } :: rest,
               closes := prev.sock :: s.closes }
    else s

/-- A successful accept (lines 322, 338-349): run the (dead) supersede
branch if `joinable`, spawn a handler thread for the fresh fd, detach it. -/
def alsaAcceptOk (s : AlsaServer) : AlsaServer :=
  let s1 := if s.joinable then alsaJoinPrev s else s
  { s1 with
    sessions := { sock := s1.nextFd, alive := true, retries := 0 } :: s1.sessions,
    nextFd := s1.nextFd + 1,
    joinable := false }

/-- Whether a fd has not been closed yet. -/
def alsaFdOpen (s : AlsaServer) (fd : Nat) : Bool := ¬ s.closes.contains fd

/-- Sends on a closed fd fail with `EBADF` instead of the environment's
send result. -/
def alsaEffEnv (s : AlsaServer) (fd : Nat) (env : AlsaEnv) : AlsaEnv :=
  if alsaFdOpen s fd then env else { env with sendRet := -1, sendErrno := EBADF }

/-- One iteration of the handler thread owning `fd` (lines 38-78); if its
loop breaks the thread closes its socket and terminates (line 80). -/
def alsaSessStep (s : AlsaServer) (fd : Nat) (env : AlsaEnv) : AlsaServer :=
  match s.sessions.find? (fun x => x.sock == fd) with
  | none => s
  | some sess =>
    if sess.alive && s.running then
      let o := alsaStep alsaDefaultBufferSize sess.retries (alsaEffEnv s fd env)
      let s1 :=
        { s with sends := s.sends ++
            o.sends.filterMap (fun (c : SendCall) => if 0 ≤ c.ret then some (fd, delivered c) else none) }
      match o.ctl with
      | LoopCtl.cont =>
        { s1 with
          sessions := s1.sessions.map (fun (x : AlsaSession) => if x.sock == fd then { x with retries := o.retries } else x) }
      | LoopCtl.broke =>
        { s1 with
          sessions := s1.sessions.map (fun (x : AlsaSession) => if x.sock == fd then { x with alive := false } else x),
          closes := fd :: s1.closes }
    else s

inductive AlsaLabel
  | accept
  | sess (fd : Nat) (env : AlsaEnv)

def alsaServerStep (s : AlsaServer) : AlsaLabel → AlsaServer
  | AlsaLabel.accept => alsaAcceptOk s
  | AlsaLabel.sess fd env => alsaSessStep s fd env

def alsaServerRun (s : AlsaServer) (ls : List AlsaLabel) : AlsaServer :=
  ls.foldl alsaServerStep s

/-! ## Video server transition system (video_stream/server.cpp lines 313-349)

The accept loop closes the existing client (lines 334-339) and records the
new one (line 342) before spawning a detached `handle_client` thread.  The
handler loop runs while `client_socket == current_client` (line 63); on
exit it clears `current_client` only if it still equals its own socket and
then closes its socket unconditionally (lines 102-105).  `running` stays
true throughout (the shutdown path after the loop is not modelled).  The
`displaced` field is bookkeeping recording that the accept loop closed the
session's socket. -/

inductive CloseSrc
  | byAccept
  | byExit
deriving DecidableEq

structure VidSession where
  sock : Nat
  alive : Bool
  displaced : Bool
deriving DecidableEq

structure VidServer where
  nextFd : Nat
  current : Option Nat
  vid : VidState
  sessions : List VidSession
  closes : List (Nat × CloseSrc)
deriving DecidableEq

def vidServerInit (cfg : VidCfg) : VidServer :=
  { nextFd := 0, current := none,
    vid := { snapshot := false, capW := cfg.width, capH := cfg.height },
    sessions := [], closes := [] }

/-- A successful accept (lines 324, 334-347): close the existing client and
clear the slot, then record the fresh fd and spawn its handler thread. -/
def vidAccept (s : VidServer) : VidServer :=
  let s1 := match s.current with
    | some c =>
      { s with
        sessions := s.sessions.map (fun (x : VidSession) => if x.sock == c then { x with displaced := true } else x),
        closes := (c, CloseSrc.byAccept) :: s.closes,
        current := none }
    | none => s
  { s1 with
    current := some s1.nextFd,
    nextFd := s1.nextFd + 1,
    sessions := { sock := s1.nextFd, alive := true, displaced := false } :: s1.sessions }

def vidFdOpen (s : VidServer) (fd : Nat) : Bool := s.closes.all (fun e => e.fst != fd)

/-- The handler epilogue (lines 102-105): clear `current_client` only when
it still equals the own socket, then close the socket unconditionally. -/
def vidExit (s : VidServer) (fd : Nat) : VidServer :=
  { s with
    current := if s.current = some fd then none else s.current,
    closes := (fd, CloseSrc.byExit) :: s.closes,
    sessions := s.sessions.map (fun (x : VidSession) => if x.sock == fd then { x with alive := false } else x) }

/-- The guarded loop body: run one iteration of lines 63-97 on the shared
state, where sends on an already-closed fd fail; on `break`, run the
epilogue. -/
def vidBody (cfg : VidCfg) (s : VidServer) (fd : Nat) (ev : VidEvent) : VidServer :=
  let ev' := if vidFdOpen s fd then ev
             else { ev with sendSizeOk := false, sendDataOk := false }
  let o := vidIter cfg s.vid ev'
  match o.ctl with
  | LoopCtl.cont => { s with vid := o.state }
  | LoopCtl.broke => vidExit { s with vid := o.state } fd

/-- One iteration of the handler thread owning `fd`: check the loop guard
`client_socket == current_client` (line 63, `running` is true in this
model); if it fails, run the epilogue; otherwise run the loop body. -/
def vidSessStep (cfg : VidCfg) (s : VidServer) (fd : Nat) (ev : VidEvent) : VidServer :=
  match s.sessions.find? (fun x => x.sock == fd) with
  | none => s
  | some sess =>
    if sess.alive then
      if s.current = some fd then vidBody cfg s fd ev
      else vidExit s fd
    else s

inductive VidLabel
  | accept
  | sess (fd : Nat) (ev : VidEvent)

def vidServerStep (cfg : VidCfg) (s : VidServer) : VidLabel → VidServer
  | VidLabel.accept => vidAccept s
  | VidLabel.sess fd ev => vidSessStep cfg s fd ev

def vidServerRun (cfg : VidCfg) (s : VidServer) (ls : List VidLabel) : VidServer :=
  ls.foldl (vidServerStep cfg) s

/-- Number of times fd was closed, by either closer. -/
def closeCount (s : VidServer) (fd : Nat) : Nat :=
  s.closes.countP (fun e => e.fst == fd)

/-- Number of times fd was closed by one particular closer. -/
def closeCountSrc (s : VidServer) (fd : Nat) (src : CloseSrc) : Nat :=
  s.closes.countP (fun e => e.fst == fd && e.snd == src)

/-! ## Accept-failure handling of the three accept loops -/

inductive AcceptOutcome
  | handle
  | again
  | stop
deriving DecidableEq

/-- video_stream/server.cpp lines 324-328: a negative accept is logged (when
running) and the loop `continue`s. -/
def videoAcceptHandle (running : Bool) (acceptRet : Int) : AcceptOutcome :=
  if acceptRet < 0 then AcceptOutcome.again else AcceptOutcome.handle

/-- audio_stream/server.cpp lines 322-333: `EAGAIN`/`EWOULDBLOCK` sleeps and
`continue`s (leaving the loop only when `running` is already false); any
other failure is logged (when running) and the loop `continue`s. -/
def alsaAcceptHandle (running : Bool) (acceptRet : Int) (errno : Nat) : AcceptOutcome :=
  if acceptRet < 0 then
    if errno = EAGAIN ∨ errno = EWOULDBLOCK then
      if running then AcceptOutcome.again else AcceptOutcome.stop
    else AcceptOutcome.again
  else AcceptOutcome.handle

/-- src/unnamed/part_000 lines 317-321: a negative accept is logged and the
loop `continue`s. -/
def paAcceptHandle (acceptRet : Int) : AcceptOutcome :=
  if acceptRet < 0 then AcceptOutcome.again else AcceptOutcome.handle

/-! ## Helper lemmas -/

theorem decode_htonl32 (n : Nat) : decodeBE32 (htonl32 n) = n % 4294967296 := by
  simp only [decodeBE32, htonl32, List.foldl]
  omega

theorem vidIter_chunks_ok (cfg : VidCfg) (s : VidState) (ev : VidEvent)
    (h1 : ev.sendSizeOk = true) (h2 : ev.sendDataOk = true) :
    (vidIter cfg s ev).chunks.flatten =
      ((vidIter cfg s ev).frames.map (fun f => frameMessage f.2)).flatten := by
  rcases ev with ⟨cap, ss, sd⟩
  simp only at h1 h2
  subst h1 h2
  by_cases hs : s.snapshot = true <;> cases cap <;>
    simp [vidIter, vidSend, frameMessage, hs]

theorem vidRun_chunks_ok (cfg : VidCfg) :
    ∀ (evs : List VidEvent) (s : VidState),
    (∀ e ∈ evs, e.sendSizeOk = true ∧ e.sendDataOk = true) →
    (vidRun cfg s evs).chunks.flatten =
      ((vidRun cfg s evs).frames.map (fun f => frameMessage f.2)).flatten := by
  intro evs
  induction evs with
  | nil => intro s _; simp [vidRun]
  | cons e es ih =>
    intro s h
    have he := h e (by simp)
    have hes : ∀ x ∈ es, x.sendSizeOk = true ∧ x.sendDataOk = true :=
      fun x hx => h x (by simp [hx])
    unfold vidRun
    cases hctl : (vidIter cfg s e).ctl with
    | broke => simpa [hctl] using vidIter_chunks_ok cfg s e he.1 he.2
    | cont =>
      simp only [hctl, List.map_append, List.flatten_append]
      rw [vidIter_chunks_ok cfg s e he.1 he.2, ih ((vidIter cfg s e).state) hes]

/-- Claim C3: every frame emitted by the video forwarding loop is written
as a 4-byte big-endian length whose decoded value equals the byte length of
the JPEG payload that follows it, and a run of the loop in which all sends
succeed puts exactly the concatenation of these frame messages on the
socket. -/
theorem C3_video_frame_format :
    (∀ p : List Nat, (htonl32 p.length).length = 4 ∧ frameMessage p = htonl32 p.length ++ p) ∧
    (∀ p : List Nat, p.length < 4294967296 → decodeBE32 (htonl32 p.length) = p.length) ∧
    (∀ (cfg : VidCfg) (s : VidState) (evs : List VidEvent),
      (∀ e ∈ evs, e.sendSizeOk = true ∧ e.sendDataOk = true) →
      (vidRun cfg s evs).chunks.flatten =
        ((vidRun cfg s evs).frames.map (fun f => frameMessage f.2)).flatten) := by
  refine ⟨fun p => ⟨by simp [htonl32], rfl⟩, fun p h => ?_,
    fun cfg s evs h => vidRun_chunks_ok cfg evs s h⟩
  rw [decode_htonl32, Nat.mod_eq_of_lt h]

/-- Witness for C3 at a concrete payload and a concrete two-frame run. -/
theorem C3_video_frame_format_witness :
    ([7, 8, 9] : List Nat).length < 4294967296 ∧
      decodeBE32 (htonl32 ([7, 8, 9] : List Nat).length) = ([7, 8, 9] : List Nat).length ∧
      (∀ e ∈ [({ capOut := some [7, 8, 9], sendSizeOk := true, sendDataOk := true } : VidEvent)],
        e.sendSizeOk = true ∧ e.sendDataOk = true) ∧
      (vidRun vidCfg0 { snapshot := false, capW := 320, capH := 240 }
          [{ capOut := some [7, 8, 9], sendSizeOk := true, sendDataOk := true }]).chunks.flatten =
        ((vidRun vidCfg0 { snapshot := false, capW := 320, capH := 240 }
          [{ capOut := some [7, 8, 9], sendSizeOk := true, sendDataOk := true }]).frames.map
            (fun f => frameMessage f.2)).flatten :=
  ⟨by decide,
   C3_video_frame_format.2.1 [7, 8, 9] (by decide),
   by decide,
   C3_video_frame_format.2.2 vidCfg0 { snapshot := false, capW := 320, capH := 240 }
     [{ capOut := some [7, 8, 9], sendSizeOk := true, sendDataOk := true }] (by decide)⟩

/-- Claim C8: in every variant a failed accept call is logged and the loop
continues to the next iteration; while the server is running, an accept
failure never leaves the accept loop (and so never terminates the
process). -/
theorem C8_accept_failure_nonfatal :
    (∀ (running : Bool) (ret : Int), ret < 0 →
      videoAcceptHandle running ret = AcceptOutcome.again) ∧
    (∀ (ret : Int) (e : Nat), ret < 0 →
      alsaAcceptHandle true ret e = AcceptOutcome.again) ∧
    (∀ ret : Int, ret < 0 → paAcceptHandle ret = AcceptOutcome.again) := by
  refine ⟨fun rg ret h => ?_, fun ret e h => ?_, fun ret h => ?_⟩
  · simp [videoAcceptHandle, h]
  · by_cases he : e = EAGAIN ∨ e = EWOULDBLOCK <;> simp [alsaAcceptHandle, h, he]
  · simp [paAcceptHandle, h]

/-- Witness for C8 at a concrete failed accept. -/
theorem C8_accept_failure_nonfatal_witness :
    ((-1 : Int) < 0) ∧ videoAcceptHandle true (-1) = AcceptOutcome.again ∧
      alsaAcceptHandle true (-1) 11 = AcceptOutcome.again ∧
      paAcceptHandle (-1) = AcceptOutcome.again :=
  ⟨by decide, C8_accept_failure_nonfatal.1 true (-1) (by decide),
   C8_accept_failure_nonfatal.2.1 (-1) 11 (by decide),
   C8_accept_failure_nonfatal.2.2 (-1) (by decide)⟩

/-! ## ALSA loop facts -/

theorem alsaStep_short (bufferSize r : Nat) (env : AlsaEnv)
    (h0 : 0 ≤ env.readRet) (hne : env.readRet ≠ ((bufferSize / 2 : Nat) : Int)) :
    alsaStep bufferSize r env = { retries := r, ctl := LoopCtl.cont, sends := [] } := by
  have h1 : ¬ (env.readRet = -(EPIPE : Int) ∨ env.readRet = -(EOVERFLOW : Int)) := by
    simp only [EPIPE, EOVERFLOW]
    omega
  have h2 : ¬ env.readRet < 0 := by omega
  unfold alsaStep
  rw [if_neg h1, if_neg h2, if_pos hne]

theorem alsaRun_cons_of_cont (bufferSize r r' : Nat) (s0 : List SendCall)
    (e : AlsaEnv) (es : List AlsaEnv)
    (h : alsaStep bufferSize r e = { retries := r', ctl := LoopCtl.cont, sends := s0 }) :
    alsaRun bufferSize r (e :: es) =
      { retries := (alsaRun bufferSize r' es).retries,
        ctl := (alsaRun bufferSize r' es).ctl,
        sends := s0 ++ (alsaRun bufferSize r' es).sends } := by
  conv_lhs => rw [alsaRun, h]

theorem alsaRun_cons_of_broke (bufferSize r ro : Nat) (so : List SendCall)
    (e : AlsaEnv) (es : List AlsaEnv)
    (h : alsaStep bufferSize r e = { retries := ro, ctl := LoopCtl.broke, sends := so }) :
    alsaRun bufferSize r (e :: es) = { retries := ro, ctl := LoopCtl.broke, sends := so } := by
  conv_lhs => rw [alsaRun, h]

theorem alsaRun_short_replicate :
    ∀ (n r k : Nat) (b : List Nat), k ≠ 1024 →
    alsaRun alsaDefaultBufferSize r (List.replicate n (shortEnv k b)) =
      { retries := r, ctl := LoopCtl.cont, sends := [] } := by
  intro n
  induction n with
  | zero => intro r k b _; rfl
  | succ m ih =>
    intro r k b hk
    have hne : (shortEnv k b).readRet ≠ ((alsaDefaultBufferSize / 2 : Nat) : Int) := by
      simp only [shortEnv, alsaDefaultBufferSize]
      exact_mod_cast hk
    have hstep := alsaStep_short alsaDefaultBufferSize r (shortEnv k b) (by simp [shortEnv]) hne
    rw [List.replicate_succ,
      alsaRun_cons_of_cont alsaDefaultBufferSize r r [] (shortEnv k b) _ hstep,
      ih r k b hk]
    rfl

theorem alsaStep_sends_requested (bufferSize r : Nat) (env : AlsaEnv) :
    ∀ c ∈ (alsaStep bufferSize r env).sends, c.requested = bufferSize := by
  intro c hc
  simp only [alsaStep] at hc
  split_ifs at hc <;> simp_all

theorem alsaRun_sends_requested (bufferSize : Nat) :
    ∀ (envs : List AlsaEnv) (r : Nat) (c : SendCall),
    c ∈ (alsaRun bufferSize r envs).sends → c.requested = bufferSize := by
  intro envs
  induction envs with
  | nil => intro r c hc; simp [alsaRun] at hc
  | cons e es ih =>
    intro r c hc
    rcases ho : alsaStep bufferSize r e with ⟨ro, co, so⟩
    cases co with
    | broke =>
      rw [alsaRun_cons_of_broke bufferSize r ro so e es ho] at hc
      refine alsaStep_sends_requested bufferSize r e c ?_
      rw [ho]
      exact hc
    | cont =>
      rw [alsaRun_cons_of_cont bufferSize r ro so e es ho] at hc
      simp only [List.mem_append] at hc
      rcases hc with hc | hc
      · refine alsaStep_sends_requested bufferSize r e c ?_
        rw [ho]
        exact hc
      · exact ih ro c hc

/-- Claim C9: a short capture read makes the ALSA forwarding loop discard
the data and continue without touching the retry counter; every block it
does hand to send requests exactly the full buffer size; and a run of
nothing but short reads never ends the session and sends nothing. -/
theorem C9_short_read_discard :
    (∀ (bufferSize r : Nat) (env : AlsaEnv), 0 ≤ env.readRet →
      env.readRet ≠ ((bufferSize / 2 : Nat) : Int) →
      alsaStep bufferSize r env = { retries := r, ctl := LoopCtl.cont, sends := [] }) ∧
    (∀ (envs : List AlsaEnv) (r : Nat) (c : SendCall),
      c ∈ (alsaRun alsaDefaultBufferSize r envs).sends → c.requested = alsaDefaultBufferSize) ∧
    (∀ (n r k : Nat) (b : List Nat), k ≠ 1024 →
      alsaRun alsaDefaultBufferSize r (List.replicate n (shortEnv k b)) =
        { retries := r, ctl := LoopCtl.cont, sends := [] }) :=
  ⟨alsaStep_short, alsaRun_sends_requested alsaDefaultBufferSize, alsaRun_short_replicate⟩

/-- Witness for C9: a concrete short read of 5 frames, a concrete delivered
block, and a concrete run of 7 consecutive short reads. -/
theorem C9_short_read_discard_witness :
    (0 ≤ (shortEnv 5 []).readRet ∧
      (shortEnv 5 []).readRet ≠ ((alsaDefaultBufferSize / 2 : Nat) : Int) ∧
      alsaStep alsaDefaultBufferSize 3 (shortEnv 5 []) =
        { retries := 3, ctl := LoopCtl.cont, sends := [] }) ∧
    (({ requested := 2048, payload := [1, 2], ret := 2048 } : SendCall) ∈
        (alsaRun alsaDefaultBufferSize 0 [fullOkEnv alsaDefaultBufferSize [1, 2]]).sends ∧
      ({ requested := 2048, payload := [1, 2], ret := 2048 } : SendCall).requested =
        alsaDefaultBufferSize) ∧
    ((5 : Nat) ≠ 1024 ∧
      alsaRun alsaDefaultBufferSize 2 (List.replicate 7 (shortEnv 5 [])) =
        { retries := 2, ctl := LoopCtl.cont, sends := [] }) :=
  ⟨⟨by decide, by decide,
    C9_short_read_discard.1 alsaDefaultBufferSize 3 (shortEnv 5 []) (by decide) (by decide)⟩,
   ⟨by decide,
    C9_short_read_discard.2.1 [fullOkEnv alsaDefaultBufferSize [1, 2]] 0
      { requested := 2048, payload := [1, 2], ret := 2048 } (by decide)⟩,
   ⟨by decide, C9_short_read_discard.2.2 7 2 5 [] (by decide)⟩⟩

theorem alsaStep_eagain (bufferSize r : Nat) (b : List Nat) :
    alsaStep bufferSize r (eagainEnv bufferSize b) =
      { retries := 0, ctl := LoopCtl.cont,
        sends := [{ requested := bufferSize, payload := b, ret := -1 }] } := by
  have h1 : ¬ ((eagainEnv bufferSize b).readRet = -(EPIPE : Int) ∨
      (eagainEnv bufferSize b).readRet = -(EOVERFLOW : Int)) := by
    simp only [eagainEnv, EPIPE, EOVERFLOW]
    omega
  have h2 : ¬ (eagainEnv bufferSize b).readRet < 0 := by
    simp only [eagainEnv]
    omega
  have h3 : ¬ (eagainEnv bufferSize b).readRet ≠ ((bufferSize / 2 : Nat) : Int) := by
    simp [eagainEnv]
  unfold alsaStep
  rw [if_neg h1, if_neg h2, if_neg h3]
  simp [eagainEnv, EAGAIN]

theorem alsaStep_readErr (bufferSize r : Nat) (env : AlsaEnv) (h : env.readRet < 0) :
    alsaStep bufferSize r env =
      { retries := r + 1,
        ctl := if 5 ≤ r + 1 then LoopCtl.broke else LoopCtl.cont,
        sends := [] } := by
  unfold alsaStep
  by_cases h1 : env.readRet = -(EPIPE : Int) ∨ env.readRet = -(EOVERFLOW : Int)
  · rw [if_pos h1]
  · rw [if_neg h1, if_pos h]

/-- Claim C10: the ALSA handler sets its client socket non-blocking, and a
send that would block makes the loop silently discard the captured block
and move on to a fresh capture read: the iteration continues with the
retry counter reset, nothing of the block is delivered, the continuing run
is exactly the run of the remaining reads, and a concrete run shows a
block omitted from the delivered stream under backpressure. -/
theorem C10_nonblocking_send_discard :
    (∀ flags : Nat, Nat.testBit (alsaClientSetup flags) 11 = true) ∧
    (∀ (bufferSize r : Nat) (b : List Nat),
      alsaStep bufferSize r (eagainEnv bufferSize b) =
        { retries := 0, ctl := LoopCtl.cont,
          sends := [{ requested := bufferSize, payload := b, ret := -1 }] } ∧
      delivered { requested := bufferSize, payload := b, ret := -1 } = []) ∧
    (∀ (bufferSize r : Nat) (b : List Nat) (envs : List AlsaEnv),
      wireBytes (alsaRun bufferSize r (eagainEnv bufferSize b :: envs)).sends =
        wireBytes (alsaRun bufferSize 0 envs).sends) ∧
    wireBytes (alsaRun alsaDefaultBufferSize 0
        [eagainEnv alsaDefaultBufferSize [1], fullOkEnv alsaDefaultBufferSize [2]]).sends = [2] := by
  refine ⟨fun flags => ?_, fun bufferSize r b => ⟨alsaStep_eagain bufferSize r b, by simp [delivered]⟩,
    fun bufferSize r b envs => ?_, by decide⟩
  · simp only [alsaClientSetup, fcntlSetNonblock, O_NONBLOCK, Nat.testBit_or]
    rw [show Nat.testBit 2048 11 = true by decide]
    exact Bool.or_true _
  · rw [alsaRun_cons_of_cont bufferSize r 0 _ (eagainEnv bufferSize b) envs
      (alsaStep_eagain bufferSize r b)]
    simp [wireBytes, delivered]

/-- Claim C7 counterexample: with the program's buffer of 2048 bytes, a
full capture read followed by a non-blocking send that returns 3 delivers
exactly 3 bytes - one and a half samples - to the wire, and the loop
just continues (the incomplete send is only logged,
audio_stream/server.cpp lines 75-77). -/
theorem C7_odd_byte_delivery :
    alsaStep alsaDefaultBufferSize 0
        { readRet := 1024, block := List.replicate 2048 9, sendRet := 3, sendErrno := 0 } =
      { retries := 0, ctl := LoopCtl.cont,
        sends := [{ requested := 2048, payload := List.replicate 2048 9, ret := 3 }] } ∧
    delivered { requested := 2048, payload := List.replicate 2048 9, ret := 3 } = [9, 9, 9] ∧
    ¬ ((3 : Nat) % 2 = 0) :=
  ⟨rfl, rfl, by decide⟩

theorem paStep_sends_requested (env : PaEnv) :
    ∀ c ∈ (paStep env).2, c.requested = FRAMES_PER_BUFFER * 2 := by
  intro c hc
  simp only [paStep] at hc
  split_ifs at hc <;> simp_all

theorem paRun_cons_of_cont (e : PaEnv) (es : List PaEnv) (s0 : List SendCall)
    (h : paStep e = (LoopCtl.cont, s0)) :
    paRun (e :: es) = ((paRun es).1, s0 ++ (paRun es).2) := by
  conv_lhs => rw [paRun, h]

theorem paRun_cons_of_broke (e : PaEnv) (es : List PaEnv) (s0 : List SendCall)
    (h : paStep e = (LoopCtl.broke, s0)) :
    paRun (e :: es) = (LoopCtl.broke, s0) := by
  conv_lhs => rw [paRun, h]

theorem paRun_sends_requested :
    ∀ (envs : List PaEnv) (c : SendCall),
    c ∈ (paRun envs).2 → c.requested = FRAMES_PER_BUFFER * 2 := by
  intro envs
  induction envs with
  | nil => intro c hc; simp [paRun] at hc
  | cons e es ih =>
    intro c hc
    rcases ho : paStep e with ⟨ctl, so⟩
    cases ctl with
    | broke =>
      rw [paRun_cons_of_broke e es so ho] at hc
      refine paStep_sends_requested e c ?_
      rw [ho]
      exact hc
    | cont =>
      rw [paRun_cons_of_cont e es so ho] at hc
      simp only [List.mem_append] at hc
      rcases hc with hc | hc
      · refine paStep_sends_requested e c ?_
        rw [ho]
        exact hc
      · exact ih c hc

/-- Claim C7 amended: every audio block handed to send requests exactly the
full buffer - 2048 bytes in the ALSA variant and FRAMES_PER_BUFFER * 2
bytes in the PortAudio variants - which is an exact multiple of the 2-byte
sample width; the delivered byte count, however, is whatever send returns
and is only logged when incomplete, so a partial-sample delivery is not
prevented. -/
theorem C7_requested_blocks_sample_aligned :
    (∀ (envs : List AlsaEnv) (r : Nat) (c : SendCall),
      c ∈ (alsaRun alsaDefaultBufferSize r envs).sends → c.requested % 2 = 0) ∧
    (∀ (envs : List PaEnv) (c : SendCall), c ∈ (paRun envs).2 → c.requested % 2 = 0) := by
  constructor
  · intro envs r c hc
    rw [alsaRun_sends_requested alsaDefaultBufferSize envs r c hc]
    decide
  · intro envs c hc
    rw [paRun_sends_requested envs c hc]
    decide

/-- Witness for the amended C7 at one concrete ALSA run and one concrete
PortAudio run. -/
theorem C7_requested_blocks_sample_aligned_witness :
    (({ requested := 2048, payload := [3, 4], ret := 2048 } : SendCall) ∈
        (alsaRun alsaDefaultBufferSize 0 [fullOkEnv alsaDefaultBufferSize [3, 4]]).sends ∧
      ({ requested := 2048, payload := [3, 4], ret := 2048 } : SendCall).requested % 2 = 0) ∧
    (({ requested := 2048, payload := [5], ret := 2048 } : SendCall) ∈
        (paRun [{ readOk := true, block := [5], sendRet := 2048 }]).2 ∧
      ({ requested := 2048, payload := [5], ret := 2048 } : SendCall).requested % 2 = 0) :=
  ⟨⟨by decide,
    C7_requested_blocks_sample_aligned.1 [fullOkEnv alsaDefaultBufferSize [3, 4]] 0
      { requested := 2048, payload := [3, 4], ret := 2048 } (by decide)⟩,
   ⟨by decide,
    C7_requested_blocks_sample_aligned.2 [{ readOk := true, block := [5], sendRet := 2048 }]
      { requested := 2048, payload := [5], ret := 2048 } (by decide)⟩⟩

/-- Claim C6 counterexample: six consecutive anomalous capture reads (short
reads, logged by the loop) do not terminate the session and leave the
retry counter at zero, although the claimed retry limit is five. -/
theorem C6_short_reads_exceed_retry_limit :
    alsaRun alsaDefaultBufferSize 0 (List.replicate 6 (shortEnv 5 [])) =
      { retries := 0, ctl := LoopCtl.cont, sends := [] } := by
  decide

/-- Claim C6 amended: a transient capture read error (negative return)
increments the retry counter and ends the session exactly when the counter
reaches 5; five consecutive read errors from a fresh session break the
loop while four do not; on such a failure the handler closes its socket
and the accept loop still spawns new sessions; but the short-read path and
the would-block send path are repeated without bound and never advance the
retry counter. -/
theorem C6_retry_behavior_amended :
    (∀ (bufferSize r : Nat) (env : AlsaEnv), env.readRet < 0 →
      alsaStep bufferSize r env =
        { retries := r + 1,
          ctl := if 5 ≤ r + 1 then LoopCtl.broke else LoopCtl.cont,
          sends := [] }) ∧
    (alsaRun alsaDefaultBufferSize 0 (List.replicate 5 errEnv) =
      { retries := 5, ctl := LoopCtl.broke, sends := [] }) ∧
    ((alsaRun alsaDefaultBufferSize 0 (List.replicate 4 errEnv)).ctl = LoopCtl.cont) ∧
    ((alsaServerRun alsaServerInit [AlsaLabel.accept, AlsaLabel.sess 0 errEnv,
        AlsaLabel.sess 0 errEnv, AlsaLabel.sess 0 errEnv, AlsaLabel.sess 0 errEnv,
        AlsaLabel.sess 0 errEnv]).closes = [0] ∧
      (∃ x ∈ (alsaServerRun alsaServerInit [AlsaLabel.accept, AlsaLabel.sess 0 errEnv,
        AlsaLabel.sess 0 errEnv, AlsaLabel.sess 0 errEnv, AlsaLabel.sess 0 errEnv,
        AlsaLabel.sess 0 errEnv]).sessions, x.sock = 0 ∧ x.alive = false) ∧
      (∃ x ∈ (alsaServerStep (alsaServerRun alsaServerInit [AlsaLabel.accept,
        AlsaLabel.sess 0 errEnv, AlsaLabel.sess 0 errEnv, AlsaLabel.sess 0 errEnv,
        AlsaLabel.sess 0 errEnv, AlsaLabel.sess 0 errEnv]) AlsaLabel.accept).sessions,
        x.sock = 1 ∧ x.alive = true)) ∧
    (∀ (n r k : Nat) (b : List Nat), k ≠ 1024 →
      (alsaRun alsaDefaultBufferSize r (List.replicate n (shortEnv k b))).ctl = LoopCtl.cont) ∧
    (∀ (bufferSize r : Nat) (b : List Nat),
      (alsaStep bufferSize r (eagainEnv bufferSize b)).ctl = LoopCtl.cont ∧
      (alsaStep bufferSize r (eagainEnv bufferSize b)).retries = 0) := by
  refine ⟨alsaStep_readErr, by decide, by decide, ⟨by decide, by decide, by decide⟩,
    fun n r k b hk => ?_, fun bufferSize r b => ?_⟩
  · rw [alsaRun_short_replicate n r k b hk]
  · rw [alsaStep_eagain bufferSize r b]
    exact ⟨rfl, rfl⟩

/-- Witness for the amended C6 at a concrete read error and a concrete
short-read run. -/
theorem C6_retry_behavior_amended_witness :
    (errEnv.readRet < 0 ∧
      alsaStep alsaDefaultBufferSize 1 errEnv =
        { retries := 2, ctl := LoopCtl.cont, sends := [] }) ∧
    ((9 : Nat) ≠ 1024 ∧
      (alsaRun alsaDefaultBufferSize 0 (List.replicate 3 (shortEnv 9 [7]))).ctl = LoopCtl.cont) :=
  ⟨⟨by decide, C6_retry_behavior_amended.1 alsaDefaultBufferSize 1 errEnv (by decide)⟩,
   ⟨by decide, C6_retry_behavior_amended.2.2.2.2.1 3 0 9 [7] (by decide)⟩⟩

/-! ## Concrete traces exhibiting the ALSA displacement bug and the video
double close -/

/-- ALSA trace: client 0 connects and receives a block, then client 1
connects. -/
def c1Pre : AlsaServer :=
  alsaServerRun alsaServerInit
    [AlsaLabel.accept, AlsaLabel.sess 0 (fullOkEnv alsaDefaultBufferSize [9, 9]),
     AlsaLabel.accept]

/-- Claim C1 (refuted on the ALSA variant): after client 1 is accepted,
client 0's socket has never been closed, both handler threads are still
alive, the `joinable` guard of the supersede branch is false (the thread
was detached), and a further iteration of client 0's handler delivers more
data on socket 0. -/
theorem C1_alsa_first_socket_stays_open :
    c1Pre.closes = [] ∧
    (∃ x ∈ c1Pre.sessions, x.sock = 0 ∧ x.alive = true) ∧
    (∃ x ∈ c1Pre.sessions, x.sock = 1 ∧ x.alive = true) ∧
    c1Pre.joinable = false ∧
    (alsaServerStep c1Pre (AlsaLabel.sess 0 (fullOkEnv alsaDefaultBufferSize [7, 7]))).closes
      = [] ∧
    (alsaServerStep c1Pre (AlsaLabel.sess 0 (fullOkEnv alsaDefaultBufferSize [7, 7]))).sends
      = c1Pre.sends ++ [(0, [7, 7])] := by
  decide

/-- ALSA trace for C2: two clients accepted, then each handler thread runs
one iteration. -/
def c2Pre : AlsaServer := alsaServerRun alsaServerInit [AlsaLabel.accept, AlsaLabel.accept]

def c2Post : AlsaServer :=
  alsaServerRun c2Pre
    [AlsaLabel.sess 1 (fullOkEnv alsaDefaultBufferSize [5]),
     AlsaLabel.sess 0 (fullOkEnv alsaDefaultBufferSize [6])]

/-- Claim C2 (refuted on the ALSA variant): with both connections active,
both forwarding loops are alive and both deliver data - the superseded
loop neither observes a current-client change (its condition is only
`while (running)`) nor finds its socket closed, so two forwarding loops
send during the same span of the run. -/
theorem C2_alsa_two_loops_send :
    (∃ x ∈ c2Pre.sessions, x.sock = 0 ∧ x.alive = true) ∧
    (∃ x ∈ c2Pre.sessions, x.sock = 1 ∧ x.alive = true) ∧
    c2Pre.joinable = false ∧
    c2Post.sends = [(1, [5]), (0, [6])] ∧
    c2Post.closes = [] ∧
    (∃ x ∈ c2Post.sessions, x.sock = 0 ∧ x.alive = true) ∧
    (∃ x ∈ c2Post.sessions, x.sock = 1 ∧ x.alive = true) := by
  decide

/-- Video trace: client 0 connects, client 1 displaces it (the accept loop
closes socket 0), then client 0's handler thread runs once, fails the
`client_socket == current_client` guard and closes socket 0 again. -/
def c4Final : VidServer :=
  vidServerRun vidCfg0 (vidServerInit vidCfg0)
    [VidLabel.accept, VidLabel.accept,
     VidLabel.sess 0 { capOut := some [1], sendSizeOk := true, sendDataOk := true }]

/-- Claim C4 counterexample: the superseded session's socket is closed
twice - once by the accept loop and once by the displaced handler's
unconditional `close(client_socket)` - not exactly once. -/
theorem C4_superseded_socket_closed_twice :
    closeCount c4Final 0 = 2 ∧
    closeCountSrc c4Final 0 CloseSrc.byAccept = 1 ∧
    closeCountSrc c4Final 0 CloseSrc.byExit = 1 := by
  decide

/-! ## Snapshot-flag facts (video forwarding loop) -/

theorem vidRun_cons_of_broke (cfg : VidCfg) (s st : VidState) (e : VidEvent) (es : List VidEvent)
    (fr : List (Bool × List Nat)) (ch : List (List Nat))
    (h : vidIter cfg s e = { state := st, ctl := LoopCtl.broke, frames := fr, chunks := ch }) :
    vidRun cfg s (e :: es) = { state := st, ctl := LoopCtl.broke, frames := fr, chunks := ch } := by
  conv_lhs => rw [vidRun, h]

theorem vidRun_cons_of_cont (cfg : VidCfg) (s st : VidState) (e : VidEvent) (es : List VidEvent)
    (fr : List (Bool × List Nat)) (ch : List (List Nat))
    (h : vidIter cfg s e = { state := st, ctl := LoopCtl.cont, frames := fr, chunks := ch }) :
    vidRun cfg s (e :: es) =
      { state := (vidRun cfg st es).state, ctl := (vidRun cfg st es).ctl,
        frames := fr ++ (vidRun cfg st es).frames,
        chunks := ch ++ (vidRun cfg st es).chunks } := by
  conv_lhs => rw [vidRun, h]

theorem vidIter_snapshot_consume (cfg : VidCfg) (s : VidState) (ev : VidEvent) (b : List Nat)
    (hs : s.snapshot = true) (hc : ev.capOut = some b) :
    (vidIter cfg s ev).state = { snapshot := false, capW := cfg.width, capH := cfg.height } ∧
    (vidIter cfg s ev).frames = [(true, b)] := by
  simp [vidIter, hs, hc]

theorem vidIter_snapshot_fail (cfg : VidCfg) (s : VidState) (ev : VidEvent)
    (hs : s.snapshot = true) (hc : ev.capOut = none) :
    (vidIter cfg s ev).frames = [] ∧ (vidIter cfg s ev).chunks = [] ∧
    (vidIter cfg s ev).ctl = LoopCtl.broke := by
  simp [vidIter, hs, hc]

theorem vidIter_normal_state (cfg : VidCfg) (s : VidState) (ev : VidEvent)
    (hs : s.snapshot = false) :
    (vidIter cfg s ev).state = s ∧ ∀ f ∈ (vidIter cfg s ev).frames, f.1 = false := by
  cases hc : ev.capOut <;> simp [vidIter, hs, hc]

theorem vidRun_normal_no_snap (cfg : VidCfg) :
    ∀ (evs : List VidEvent) (s : VidState), s.snapshot = false →
    (vidRun cfg s evs).frames.countP (fun f => f.1) = 0 := by
  intro evs
  induction evs with
  | nil => intro s _; simp [vidRun]
  | cons e es ih =>
    intro s hs
    have h1 := vidIter_normal_state cfg s e hs
    rcases ho : vidIter cfg s e with ⟨st, ctl, fr, ch⟩
    rw [ho] at h1
    have hst : st = s := h1.1
    have hfr0 : fr.countP (fun f => f.1) = 0 := by
      rw [List.countP_eq_zero]
      intro f hf
      simp [h1.2 f hf]
    cases ctl with
    | broke => rw [vidRun_cons_of_broke cfg s st e es fr ch ho]; exact hfr0
    | cont =>
      rw [vidRun_cons_of_cont cfg s st e es fr ch ho]
      simp only [List.countP_append]
      rw [hfr0, hst, ih s hs]

theorem vidRun_snap_first (cfg : VidCfg) :
    ∀ (evs : List VidEvent) (s : VidState), s.snapshot = true →
    (vidRun cfg s evs).frames = [] ∨
      ∃ b rest, (vidRun cfg s evs).frames = (true, b) :: rest ∧
        rest.countP (fun f => f.1) = 0 := by
  intro evs
  cases evs with
  | nil => intro s _; left; rfl
  | cons e es =>
    intro s hs
    cases hc : e.capOut with
    | none =>
      have h2 := vidIter_snapshot_fail cfg s e hs hc
      rcases ho : vidIter cfg s e with ⟨st, ctl, fr, ch⟩
      rw [ho] at h2
      have hfr : fr = [] := h2.1
      have hctl : ctl = LoopCtl.broke := h2.2.2
      subst hfr hctl
      rw [vidRun_cons_of_broke cfg s st e es [] ch ho]
      left
      rfl
    | some b =>
      have h1 := vidIter_snapshot_consume cfg s e b hs hc
      rcases ho : vidIter cfg s e with ⟨st, ctl, fr, ch⟩
      rw [ho] at h1
      have hst : st = { snapshot := false, capW := cfg.width, capH := cfg.height } := h1.1
      have hfr : fr = [(true, b)] := h1.2
      subst hst hfr
      cases ctl with
      | broke =>
        rw [vidRun_cons_of_broke cfg s _ e es [(true, b)] ch ho]
        right
        exact ⟨b, [], rfl, rfl⟩
      | cont =>
        rw [vidRun_cons_of_cont cfg s _ e es [(true, b)] ch ho]
        right
        refine ⟨b, (vidRun cfg _ es).frames, rfl, ?_⟩
        exact vidRun_normal_no_snap cfg es _ rfl

theorem vidRun_snap_le_one (cfg : VidCfg) (evs : List VidEvent) (s : VidState) :
    (vidRun cfg s evs).frames.countP (fun f => f.1) ≤ (if s.snapshot = true then 1 else 0) := by
  by_cases hs : s.snapshot = true
  · rw [if_pos hs]
    rcases vidRun_snap_first cfg evs s hs with h | ⟨b, rest, heq, hrest⟩
    · simp [h]
    · rw [heq]
      simp [List.countP_cons, hrest]
  · rw [if_neg hs]
    have hs' : s.snapshot = false := by
      revert hs
      cases s.snapshot <;> simp
    rw [vidRun_normal_no_snap cfg evs s hs']

/-- Claim C5: a set snapshot flag is consumed by the first forwarding
iteration that captures successfully: that iteration captures exactly one
frame in the snapshot branch, clears the flag and restores the normal
resolution; a failed snapshot capture sends nothing at all; over any run,
at most one snapshot-branch frame is produced from one set flag (none when
the flag is clear), and every normal-resolution frame of the run comes
after the single snapshot frame, i.e. after the flag was cleared. -/
theorem C5_snapshot_consumed_once :
    (∀ (cfg : VidCfg) (s : VidState) (ev : VidEvent) (b : List Nat),
      s.snapshot = true → ev.capOut = some b →
      (vidIter cfg s ev).state = { snapshot := false, capW := cfg.width, capH := cfg.height } ∧
      (vidIter cfg s ev).frames = [(true, b)]) ∧
    (∀ (cfg : VidCfg) (s : VidState) (ev : VidEvent),
      s.snapshot = true → ev.capOut = none →
      (vidIter cfg s ev).frames = [] ∧ (vidIter cfg s ev).chunks = [] ∧
      (vidIter cfg s ev).ctl = LoopCtl.broke) ∧
    (∀ (cfg : VidCfg) (evs : List VidEvent) (s : VidState),
      (vidRun cfg s evs).frames.countP (fun f => f.1) ≤ (if s.snapshot = true then 1 else 0)) ∧
    (∀ (cfg : VidCfg) (evs : List VidEvent) (s : VidState), s.snapshot = true →
      (vidRun cfg s evs).frames = [] ∨
        ∃ b rest, (vidRun cfg s evs).frames = (true, b) :: rest ∧
          rest.countP (fun f => f.1) = 0) :=
  ⟨vidIter_snapshot_consume, vidIter_snapshot_fail, vidRun_snap_le_one,
   fun cfg evs s hs => vidRun_snap_first cfg evs s hs⟩

/-- Witness for C5 at the default configuration with the flag set, one
successful snapshot capture followed by one normal capture. -/
theorem C5_snapshot_consumed_once_witness :
    (({ snapshot := true, capW := 320, capH := 240 } : VidState).snapshot = true ∧
      ({ capOut := some [3], sendSizeOk := true, sendDataOk := true } : VidEvent).capOut
        = some [3] ∧
      (vidIter vidCfg0 { snapshot := true, capW := 320, capH := 240 }
          { capOut := some [3], sendSizeOk := true, sendDataOk := true }).state =
        { snapshot := false, capW := 320, capH := 240 } ∧
      (vidIter vidCfg0 { snapshot := true, capW := 320, capH := 240 }
          { capOut := some [3], sendSizeOk := true, sendDataOk := true }).frames = [(true, [3])]) ∧
    ((vidRun vidCfg0 { snapshot := true, capW := 320, capH := 240 }
        [{ capOut := some [3], sendSizeOk := true, sendDataOk := true },
         { capOut := some [4], sendSizeOk := true, sendDataOk := true }]).frames = [] ∨
      ∃ b rest,
        (vidRun vidCfg0 { snapshot := true, capW := 320, capH := 240 }
          [{ capOut := some [3], sendSizeOk := true, sendDataOk := true },
           { capOut := some [4], sendSizeOk := true, sendDataOk := true }]).frames =
          (true, b) :: rest ∧ rest.countP (fun f => f.1) = 0) := by
  constructor
  · have h := C5_snapshot_consumed_once.1 vidCfg0 { snapshot := true, capW := 320, capH := 240 }
      { capOut := some [3], sendSizeOk := true, sendDataOk := true } [3] (by decide) (by decide)
    exact ⟨rfl, rfl, by simpa [vidCfg0] using h.1, h.2⟩
  · exact C5_snapshot_consumed_once.2.2.2 vidCfg0
      [{ capOut := some [3], sendSizeOk := true, sendDataOk := true },
       { capOut := some [4], sendSizeOk := true, sendDataOk := true }]
      { snapshot := true, capW := 320, capH := 240 } (by decide)

/-! ## Close-lifecycle invariant of the video server -/

def srcCount (l : List (Nat × CloseSrc)) (fd : Nat) (src : CloseSrc) : Nat :=
  l.countP (fun e => e.fst == fd && e.snd == src)

def totCount (l : List (Nat × CloseSrc)) (fd : Nat) : Nat :=
  l.countP (fun e => e.fst == fd)

theorem closeCountSrc_eq (s : VidServer) (fd : Nat) (src : CloseSrc) :
    closeCountSrc s fd src = srcCount s.closes fd src := rfl

theorem closeCount_eq (s : VidServer) (fd : Nat) :
    closeCount s fd = totCount s.closes fd := rfl

theorem srcCount_cons (a : Nat) (s0 : CloseSrc) (l : List (Nat × CloseSrc))
    (fd : Nat) (src : CloseSrc) :
    srcCount ((a, s0) :: l) fd src =
      srcCount l fd src + (if a = fd ∧ s0 = src then 1 else 0) := by
  simp only [srcCount, List.countP_cons]
  congr 1
  by_cases h1 : a = fd <;> by_cases h2 : s0 = src <;> simp [h1, h2]

theorem totCount_cons (a : Nat) (s0 : CloseSrc) (l : List (Nat × CloseSrc)) (fd : Nat) :
    totCount ((a, s0) :: l) fd = totCount l fd + (if a = fd then 1 else 0) := by
  simp only [totCount, List.countP_cons]
  congr 1
  by_cases h1 : a = fd <;> simp [h1]

theorem totCount_split (l : List (Nat × CloseSrc)) (fd : Nat) :
    totCount l fd = srcCount l fd CloseSrc.byAccept + srcCount l fd CloseSrc.byExit := by
  induction l with
  | nil => rfl
  | cons e l ih =>
    rcases e with ⟨a, src⟩
    rw [totCount_cons, srcCount_cons, srcCount_cons, ih]
    cases src <;> by_cases h : a = fd <;> simp [h] <;> omega

/-- Per-session characterization of the close log: a session's socket was
closed by the accept loop exactly when it was displaced, and by its
handler's epilogue exactly when the handler has exited. -/
def sessionCountsOk (closes : List (Nat × CloseSrc)) (x : VidSession) : Prop :=
  srcCount closes x.sock CloseSrc.byAccept = (if x.displaced = true then 1 else 0) ∧
  srcCount closes x.sock CloseSrc.byExit = (if x.alive = true then 0 else 1)

/-- Inductive invariant of the video server: session sockets are pairwise
distinct and below the allocation counter, the current-client slot always
names a live, not-yet-displaced session, every session satisfies the close
characterization, and sockets that never belonged to a session were never
closed. -/
def VidInv (s : VidServer) : Prop :=
  (s.sessions.map VidSession.sock).Nodup ∧
  (∀ x ∈ s.sessions, x.sock < s.nextFd) ∧
  (∀ c : Nat, s.current = some c →
    ∃ x ∈ s.sessions, x.sock = c ∧ x.alive = true ∧ x.displaced = false) ∧
  (∀ x ∈ s.sessions, sessionCountsOk s.closes x) ∧
  (∀ fd : Nat, (∀ x ∈ s.sessions, x.sock ≠ fd) → totCount s.closes fd = 0)

theorem vidInv_init (cfg : VidCfg) : VidInv (vidServerInit cfg) := by
  refine ⟨by simp [vidServerInit], by simp [vidServerInit], ?_, by simp [vidServerInit], ?_⟩
  · intro c hc
    simp [vidServerInit] at hc
  · intro fd _
    rfl

theorem vidInv_accept (s : VidServer) (h : VidInv s) : VidInv (vidAccept s) := by
  obtain ⟨hnd, hlt, hcur, hcnt, hnone⟩ := h
  have hfresh : ∀ x ∈ s.sessions, x.sock ≠ s.nextFd := by
    intro x hx
    exact Nat.ne_of_lt (hlt x hx)
  have hfresh0 : totCount s.closes s.nextFd = 0 := hnone s.nextFd hfresh
  have hfreshA : srcCount s.closes s.nextFd CloseSrc.byAccept = 0 := by
    have := totCount_split s.closes s.nextFd
    omega
  have hfreshE : srcCount s.closes s.nextFd CloseSrc.byExit = 0 := by
    have := totCount_split s.closes s.nextFd
    omega
  unfold vidAccept
  cases hc : s.current with
  | none =>
    dsimp only
    refine ⟨?_, ?_, ?_, ?_, ?_⟩
    · simp only [List.map_cons, List.nodup_cons]
      refine ⟨?_, hnd⟩
      intro hmem
      rcases List.mem_map.mp hmem with ⟨x, hx, hxe⟩
      exact hfresh x hx hxe
    · intro x hx
      rcases List.mem_cons.mp hx with hx | hx
      · subst hx; exact Nat.lt_succ_self _
      · exact Nat.lt_succ_of_lt (hlt x hx)
    · intro c hcc
      refine ⟨{ sock := s.nextFd, alive := true, displaced := false }, List.mem_cons_self _ _,
        ?_, rfl, rfl⟩
      simpa using hcc
    · intro x hx
      rcases List.mem_cons.mp hx with hx | hx
      · subst hx
        exact ⟨hfreshA, hfreshE⟩
      · exact hcnt x hx
    · intro fd hfd
      refine hnone fd ?_
      intro x hx
      exact hfd x (List.mem_cons_of_mem _ hx)
  | some c =>
    dsimp only
    obtain ⟨xc, hxcm, hxcs, hxca, hxcd⟩ := hcur c hc
    have hclt : c < s.nextFd := hxcs ▸ hlt xc hxcm
    have hcne : c ≠ s.nextFd := Nat.ne_of_lt hclt
    have hsocks :
        (s.sessions.map (fun (x : VidSession) =>
          if x.sock == c then { x with displaced := true } else x)).map VidSession.sock =
          s.sessions.map VidSession.sock := by
      rw [List.map_map]
      refine List.map_congr_left ?_
      intro x _
      by_cases hxe : x.sock = c <;> simp [hxe]
    refine ⟨?_, ?_, ?_, ?_, ?_⟩
    · simp only [List.map_cons, hsocks, List.nodup_cons]
      refine ⟨?_, hnd⟩
      intro hmem
      rcases List.mem_map.mp hmem with ⟨x, hx, hxe⟩
      exact hfresh x hx hxe
    · intro x hx
      rcases List.mem_cons.mp hx with hx | hx
      · subst hx; exact Nat.lt_succ_self _
      · rcases List.mem_map.mp hx with ⟨y, hy, hye⟩
        have : x.sock = y.sock := by
          subst hye
          by_cases hyc : y.sock = c <;> simp [hyc]
        rw [this]
        exact Nat.lt_succ_of_lt (hlt y hy)
    · intro c' hcc
      refine ⟨{ sock := s.nextFd, alive := true, displaced := false }, List.mem_cons_self _ _,
        ?_, rfl, rfl⟩
      simpa using hcc
    · intro x hx
      rcases List.mem_cons.mp hx with hx | hx
      · subst hx
        have hA : ¬ (c = s.nextFd ∧ CloseSrc.byAccept = CloseSrc.byAccept) :=
          fun hcon => hcne hcon.1
        have hE : ¬ (c = s.nextFd ∧ CloseSrc.byAccept = CloseSrc.byExit) :=
          fun hcon => CloseSrc.noConfusion hcon.2
        constructor
        · show srcCount ((c, CloseSrc.byAccept) :: s.closes) s.nextFd CloseSrc.byAccept = _
          rw [srcCount_cons, hfreshA, if_neg hA]
          simp
        · show srcCount ((c, CloseSrc.byAccept) :: s.closes) s.nextFd CloseSrc.byExit = _
          rw [srcCount_cons, hfreshE, if_neg hE]
          simp
      · rcases List.mem_map.mp hx with ⟨y, hy, hye⟩
        by_cases hyc : y.sock = c
        · have hyeq : y = xc :=
            List.inj_on_of_nodup_map hnd hy hxcm (by rw [hyc, hxcs])
          subst hyeq
          have hxe : x = { y with displaced := true } := by
            rw [← hye]
            simp [hyc]
          subst hxe
          obtain ⟨hA, hE⟩ := hcnt y hy
          have hEne : ¬ (c = y.sock ∧ CloseSrc.byAccept = CloseSrc.byExit) :=
            fun hcon => CloseSrc.noConfusion hcon.2
          constructor
          · show srcCount ((c, CloseSrc.byAccept) :: s.closes) y.sock CloseSrc.byAccept = 1
            have hpos : c = y.sock ∧ CloseSrc.byAccept = CloseSrc.byAccept := ⟨hyc.symm, rfl⟩
            rw [srcCount_cons, hA, if_pos hpos, hxcd]
            simp
          · show srcCount ((c, CloseSrc.byAccept) :: s.closes) y.sock CloseSrc.byExit =
              (if y.alive = true then 0 else 1)
            rw [srcCount_cons, hE, if_neg hEne]
            simp
        · have hxe : x = y := by
            rw [← hye]
            simp [hyc]
          subst hxe
          obtain ⟨hA, hE⟩ := hcnt x hy
          have hne : ∀ src : CloseSrc, ¬ (c = x.sock ∧ CloseSrc.byAccept = src) :=
            fun _ hcon => hyc hcon.1.symm
          constructor
          · rw [srcCount_cons, hA, if_neg (hne CloseSrc.byAccept)]
            simp
          · rw [srcCount_cons, hE, if_neg (hne CloseSrc.byExit)]
            simp
    · intro fd hfd
      have hfd' : ∀ x ∈ s.sessions, x.sock ≠ fd := by
        intro x hx
        have hmem2 : (if x.sock == c then { x with displaced := true } else x) ∈
            (s.sessions.map (fun (x : VidSession) =>
              if x.sock == c then { x with displaced := true } else x)) :=
          List.mem_map_of_mem _ hx
        have := hfd _ (List.mem_cons_of_mem _ hmem2)
        by_cases hxc : x.sock = c
        · simpa [hxc] using this
        · simpa [hxc] using this
      have hne : ¬ c = fd := fun hcon => hfd' xc hxcm (hxcs.trans hcon)
      rw [totCount_cons, hnone fd hfd', if_neg hne]

theorem vidInv_vid (s : VidServer) (v : VidState) (h : VidInv s) :
    VidInv { s with vid := v } := h

theorem vidInv_vidExit (s : VidServer) (fd : Nat) (sess : VidSession) (h : VidInv s)
    (hmem : sess ∈ s.sessions) (hsock : sess.sock = fd) (ha : sess.alive = true) :
    VidInv (vidExit s fd) := by
  obtain ⟨hnd, hlt, hcur, hcnt, hnone⟩ := h
  have hsocks :
      (s.sessions.map (fun (x : VidSession) =>
        if x.sock == fd then { x with alive := false } else x)).map VidSession.sock =
        s.sessions.map VidSession.sock := by
    rw [List.map_map]
    refine List.map_congr_left ?_
    intro x _
    by_cases hxe : x.sock = fd <;> simp [hxe]
  unfold vidExit
  refine ⟨?_, ?_, ?_, ?_, ?_⟩
  · dsimp only
    rw [hsocks]
    exact hnd
  · intro x hx
    dsimp only at hx
    rcases List.mem_map.mp hx with ⟨y, hy, hye⟩
    have : x.sock = y.sock := by
      subst hye
      by_cases hyc : y.sock = fd <;> simp [hyc]
    rw [this]
    exact hlt y hy
  · intro c hcc
    dsimp only at hcc
    by_cases hcu : s.current = some fd
    · rw [if_pos hcu] at hcc
      exact Option.noConfusion hcc
    · rw [if_neg hcu] at hcc
      obtain ⟨xc, hxcm, hxcs, hxca, hxcd⟩ := hcur c hcc
      have hcfd : c ≠ fd := by
        intro hcon
        exact hcu (hcon ▸ hcc)
      have hxne : ¬ xc.sock = fd := by
        rw [hxcs]
        exact hcfd
      refine ⟨xc, ?_, hxcs, hxca, hxcd⟩
      have hmem2 := List.mem_map_of_mem
        (fun (x : VidSession) => if x.sock == fd then { x with alive := false } else x) hxcm
      simpa [hxne] using hmem2
  · intro x hx
    dsimp only at hx ⊢
    rcases List.mem_map.mp hx with ⟨y, hy, hye⟩
    by_cases hyc : y.sock = fd
    · have hyeq : y = sess := List.inj_on_of_nodup_map hnd hy hmem (by rw [hyc, hsock])
      subst hyeq
      have hxe : x = { y with alive := false } := by
        rw [← hye]
        simp [hyc]
      subst hxe
      obtain ⟨hA, hE⟩ := hcnt y hy
      have hAne : ¬ (fd = y.sock ∧ CloseSrc.byExit = CloseSrc.byAccept) :=
        fun hcon => CloseSrc.noConfusion hcon.2
      have hEpos : fd = y.sock ∧ CloseSrc.byExit = CloseSrc.byExit := ⟨hyc.symm, rfl⟩
      constructor
      · show srcCount ((fd, CloseSrc.byExit) :: s.closes) y.sock CloseSrc.byAccept = _
        rw [srcCount_cons, hA, if_neg hAne]
        simp
      · show srcCount ((fd, CloseSrc.byExit) :: s.closes) y.sock CloseSrc.byExit = 1
        rw [srcCount_cons, hE, if_pos hEpos, ha]
        simp
    · have hxe : x = y := by
        rw [← hye]
        simp [hyc]
      subst hxe
      obtain ⟨hA, hE⟩ := hcnt x hy
      have hne : ∀ src : CloseSrc, ¬ (fd = x.sock ∧ CloseSrc.byExit = src) :=
        fun _ hcon => hyc hcon.1.symm
      constructor
      · rw [srcCount_cons, hA, if_neg (hne CloseSrc.byAccept)]
        simp
      · rw [srcCount_cons, hE, if_neg (hne CloseSrc.byExit)]
        simp
  · intro fd' hfd
    dsimp only at hfd
    have hfd' : ∀ x ∈ s.sessions, x.sock ≠ fd' := by
      intro x hx
      have hmem2 := List.mem_map_of_mem
        (fun (x : VidSession) => if x.sock == fd then { x with alive := false } else x) hx
      have := hfd _ hmem2
      by_cases hxc : x.sock = fd
      · simpa [hxc] using this
      · simpa [hxc] using this
    have hne : ¬ fd = fd' := fun hcon => hfd' sess hmem (hsock.trans hcon)
    rw [totCount_cons, hnone fd' hfd', if_neg hne]

theorem vidInv_vidBody (cfg : VidCfg) (s : VidServer) (fd : Nat) (ev : VidEvent)
    (sess : VidSession) (h : VidInv s) (hmem : sess ∈ s.sessions) (hsock : sess.sock = fd)
    (ha : sess.alive = true) : VidInv (vidBody cfg s fd ev) := by
  unfold vidBody
  split <;> dsimp only <;> split
  all_goals
    first
      | exact vidInv_vid s _ h
      | exact vidInv_vidExit { s with vid := _ } fd sess (vidInv_vid s _ h) hmem hsock ha

theorem vidInv_step (cfg : VidCfg) (s : VidServer) (l : VidLabel) (h : VidInv s) :
    VidInv (vidServerStep cfg s l) := by
  cases l with
  | accept => exact vidInv_accept s h
  | sess fd ev =>
    show VidInv (vidSessStep cfg s fd ev)
    unfold vidSessStep
    cases hf : s.sessions.find? (fun x => x.sock == fd) with
    | none => exact h
    | some sess =>
      dsimp only
      have hmem : sess ∈ s.sessions := List.mem_of_find?_eq_some hf
      have hsock : sess.sock = fd := by simpa using List.find?_some hf
      by_cases ha : sess.alive = true
      · rw [if_pos ha]
        by_cases hcu : s.current = some fd
        · rw [if_pos hcu]
          exact vidInv_vidBody cfg s fd ev sess h hmem hsock ha
        · rw [if_neg hcu]
          exact vidInv_vidExit s fd sess h hmem hsock ha
      · rw [if_neg ha]
        exact h

theorem vidInv_run (cfg : VidCfg) (ls : List VidLabel) :
    ∀ s : VidServer, VidInv s → VidInv (vidServerRun cfg s ls) := by
  induction ls with
  | nil => intro s h; exact h
  | cons l ls ih => intro s h; exact ih _ (vidInv_step cfg s l h)

/-- The record a session leaves behind after exiting without ever having
been displaced. -/
def deadE (fd : Nat) : VidSession := { sock := fd, alive := false, displaced := false }

theorem find?_sock_unique (l : List VidSession) (hnd : (l.map VidSession.sock).Nodup)
    (sess : VidSession) (hmem : sess ∈ l) (fd : Nat) (hsock : sess.sock = fd) :
    l.find? (fun x => x.sock == fd) = some sess := by
  cases hf : l.find? (fun x => x.sock == fd) with
  | none =>
    rw [List.find?_eq_none] at hf
    have := hf sess hmem
    simp [hsock] at this
  | some y =>
    have hy : y ∈ l := List.mem_of_find?_eq_some hf
    have hys : y.sock = fd := by simpa using List.find?_some hf
    have heq : y = sess := List.inj_on_of_nodup_map hnd hy hmem (by rw [hys, hsock])
    rw [heq]

theorem dead_mem_vidExit (s : VidServer) (fd fd' : Nat)
    (hnd : (s.sessions.map VidSession.sock).Nodup)
    (hd : deadE fd ∈ s.sessions)
    (sess : VidSession) (hmem : sess ∈ s.sessions) (hsock : sess.sock = fd')
    (ha : sess.alive = true) :
    deadE fd ∈ (vidExit s fd').sessions := by
  have hne : fd ≠ fd' := by
    intro hcon
    have heq : deadE fd = sess :=
      List.inj_on_of_nodup_map hnd hd hmem (by simp [deadE, hsock, hcon])
    have hfalse : sess.alive = false := by
      rw [← heq]
      rfl
    rw [hfalse] at ha
    exact Bool.noConfusion ha
  unfold vidExit
  dsimp only
  have hmem2 := List.mem_map_of_mem
    (fun (x : VidSession) => if x.sock == fd' then { x with alive := false } else x) hd
  simpa [deadE, hne] using hmem2

theorem dead_mem_vidAccept (s : VidServer) (fd : Nat) (h : VidInv s)
    (hd : deadE fd ∈ s.sessions) :
    deadE fd ∈ (vidAccept s).sessions := by
  obtain ⟨hnd, hlt, hcur, hcnt, hnone⟩ := h
  unfold vidAccept
  cases hc : s.current with
  | none =>
    dsimp only
    exact List.mem_cons_of_mem _ hd
  | some c =>
    dsimp only
    obtain ⟨xc, hxcm, hxcs, hxca, hxcd⟩ := hcur c hc
    have hne : fd ≠ c := by
      intro hcon
      have heq : deadE fd = xc :=
        List.inj_on_of_nodup_map hnd hd hxcm (by simp [deadE, hxcs, hcon])
      have hfalse : xc.alive = false := by
        rw [← heq]
        rfl
      rw [hfalse] at hxca
      exact Bool.noConfusion hxca
    refine List.mem_cons_of_mem _ ?_
    have hmem2 := List.mem_map_of_mem
      (fun (x : VidSession) => if x.sock == c then { x with displaced := true } else x) hd
    simpa [deadE, hne] using hmem2

theorem dead_frozen_step (cfg : VidCfg) (s : VidServer) (l : VidLabel) (h : VidInv s)
    (fd : Nat) (hd : deadE fd ∈ s.sessions) :
    deadE fd ∈ (vidServerStep cfg s l).sessions := by
  cases l with
  | accept => exact dead_mem_vidAccept s fd h hd
  | sess fd' ev =>
    show deadE fd ∈ (vidSessStep cfg s fd' ev).sessions
    unfold vidSessStep
    cases hf : s.sessions.find? (fun x => x.sock == fd') with
    | none => exact hd
    | some sess =>
      dsimp only
      have hmem : sess ∈ s.sessions := List.mem_of_find?_eq_some hf
      have hsock : sess.sock = fd' := by simpa using List.find?_some hf
      by_cases ha : sess.alive = true
      · rw [if_pos ha]
        by_cases hcu : s.current = some fd'
        · rw [if_pos hcu]
          unfold vidBody
          split <;> dsimp only <;> split
          all_goals
            first
              | exact hd
              | exact dead_mem_vidExit { s with vid := _ } fd fd' h.1 hd sess hmem hsock ha
        · rw [if_neg hcu]
          exact dead_mem_vidExit s fd fd' h.1 hd sess hmem hsock ha
      · rw [if_neg ha]
        exact hd

theorem dead_frozen_run (cfg : VidCfg) (ls : List VidLabel) :
    ∀ (s : VidServer), VidInv s → ∀ fd : Nat, deadE fd ∈ s.sessions →
    deadE fd ∈ (vidServerRun cfg s ls).sessions := by
  induction ls with
  | nil => intro s _ fd hd; exact hd
  | cons l ls ih =>
    intro s h fd hd
    exact ih _ (vidInv_step cfg s l h) fd (dead_frozen_step cfg s l h fd hd)

theorem vidIter_capFail_broke (cfg : VidCfg) (s : VidState) (ev : VidEvent)
    (hc : ev.capOut = none) : (vidIter cfg s ev).ctl = LoopCtl.broke := by
  by_cases hs : s.snapshot = true
  · exact (vidIter_snapshot_fail cfg s ev hs hc).2.2
  · have hs' : s.snapshot = false := by
      revert hs
      cases s.snapshot <;> simp
    simp [vidIter, hs', hc]

theorem vidBody_capFail (cfg : VidCfg) (s : VidServer) (fd : Nat) (ev : VidEvent)
    (hc : ev.capOut = none) :
    ∃ v : VidState, vidBody cfg s fd ev = vidExit { s with vid := v } fd := by
  unfold vidBody
  by_cases hopen : vidFdOpen s fd = true
  · refine ⟨(vidIter cfg s.vid ev).state, ?_⟩
    have hctl := vidIter_capFail_broke cfg s.vid ev hc
    dsimp only
    rw [if_pos hopen]
    split <;> rename_i heq
    · rw [heq] at hctl
      exact LoopCtl.noConfusion hctl
    · rfl
  · refine ⟨(vidIter cfg s.vid { ev with sendSizeOk := false, sendDataOk := false }).state, ?_⟩
    have hctl := vidIter_capFail_broke cfg s.vid
      { ev with sendSizeOk := false, sendDataOk := false } (by simpa using hc)
    dsimp only
    rw [if_neg hopen]
    split <;> rename_i heq
    · rw [heq] at hctl
      exact LoopCtl.noConfusion hctl
    · rfl

theorem vidSessStep_capFail (cfg : VidCfg) (s : VidServer) (fd : Nat) (ev : VidEvent)
    (sess : VidSession) (hnd : (s.sessions.map VidSession.sock).Nodup)
    (hmem : sess ∈ s.sessions) (hsock : sess.sock = fd) (ha : sess.alive = true)
    (hcu : s.current = some fd) (hc : ev.capOut = none) :
    ∃ v : VidState, vidSessStep cfg s fd ev = vidExit { s with vid := v } fd := by
  obtain ⟨v, hv⟩ := vidBody_capFail cfg s fd ev hc
  refine ⟨v, ?_⟩
  unfold vidSessStep
  rw [find?_sock_unique s.sessions hnd sess hmem fd hsock]
  dsimp only
  rw [if_pos ha, if_pos hcu, hv]

/-- Claim C4 amended: in the video server model, (i) every fd is closed at
most once by the accept loop and at most once by a handler epilogue, so at
most twice in total; (ii) a handler that no longer owns the current-client
slot leaves it untouched on exit; (iii) a session that fails while still
the current client (here: a capture failure) has its socket closed exactly
once over the entire rest of the run.  Together with the counterexample
(`closeCount = 2` for a superseded session) this replaces the claimed
"exactly once". -/
theorem C4_close_lifecycle_amended (cfg : VidCfg) (ls : List VidLabel) :
    (∀ fd : Nat,
      closeCountSrc (vidServerRun cfg (vidServerInit cfg) ls) fd CloseSrc.byAccept ≤ 1 ∧
      closeCountSrc (vidServerRun cfg (vidServerInit cfg) ls) fd CloseSrc.byExit ≤ 1 ∧
      closeCount (vidServerRun cfg (vidServerInit cfg) ls) fd ≤ 2) ∧
    (∀ (fd : Nat) (ev : VidEvent),
      (vidServerRun cfg (vidServerInit cfg) ls).current ≠ some fd →
      (vidSessStep cfg (vidServerRun cfg (vidServerInit cfg) ls) fd ev).current =
        (vidServerRun cfg (vidServerInit cfg) ls).current) ∧
    (∀ (fd : Nat) (ev : VidEvent) (ls' : List VidLabel) (sess : VidSession),
      sess ∈ (vidServerRun cfg (vidServerInit cfg) ls).sessions →
      sess.sock = fd → sess.alive = true →
      (vidServerRun cfg (vidServerInit cfg) ls).current = some fd →
      ev.capOut = none →
      closeCount (vidServerRun cfg
        (vidSessStep cfg (vidServerRun cfg (vidServerInit cfg) ls) fd ev) ls') fd = 1) := by
  have hInv := vidInv_run cfg ls (vidServerInit cfg) (vidInv_init cfg)
  refine ⟨?_, ?_, ?_⟩
  · intro fd
    obtain ⟨hnd, hlt, hcur, hcnt, hnone⟩ := hInv
    rw [closeCountSrc_eq, closeCountSrc_eq, closeCount_eq, totCount_split]
    by_cases hfd : ∃ x ∈ (vidServerRun cfg (vidServerInit cfg) ls).sessions, x.sock = fd
    · obtain ⟨x, hx, hxs⟩ := hfd
      obtain ⟨hA, hE⟩ := hcnt x hx
      rw [hxs] at hA hE
      rw [hA, hE]
      refine ⟨?_, ?_, ?_⟩ <;> split_ifs <;> omega
    · push_neg at hfd
      have h0 := hnone fd hfd
      rw [totCount_split] at h0
      omega
  · intro fd ev hne
    unfold vidSessStep
    cases hf : (vidServerRun cfg (vidServerInit cfg) ls).sessions.find?
        (fun x => x.sock == fd) with
    | none => rfl
    | some sess =>
      dsimp only
      by_cases ha : sess.alive = true
      · rw [if_pos ha, if_neg hne]
        unfold vidExit
        dsimp only
        rw [if_neg hne]
      · rw [if_neg ha]
  · intro fd ev ls' sess hmem hsock ha hcu hc
    obtain ⟨hnd, hlt, hcur, hcnt, hnone⟩ := hInv
    obtain ⟨v, hv⟩ := vidSessStep_capFail cfg (vidServerRun cfg (vidServerInit cfg) ls)
      fd ev sess hnd hmem hsock ha hcu hc
    rw [hv]
    obtain ⟨xc, hxcm, hxcs, hxca, hxcd⟩ := hcur fd hcu
    have hxeq : xc = sess := List.inj_on_of_nodup_map hnd hxcm hmem (by rw [hxcs, hsock])
    have hdisp : sess.displaced = false := hxeq ▸ hxcd
    have hInv2 : VidInv (vidExit
        { vidServerRun cfg (vidServerInit cfg) ls with vid := v } fd) :=
      vidInv_vidExit _ fd sess (vidInv_vid _ v ⟨hnd, hlt, hcur, hcnt, hnone⟩) hmem hsock ha
    have hdead : deadE fd ∈ (vidExit
        { vidServerRun cfg (vidServerInit cfg) ls with vid := v } fd).sessions := by
      unfold vidExit
      dsimp only
      have hmem2 := List.mem_map_of_mem
        (fun (x : VidSession) => if x.sock == fd then { x with alive := false } else x) hmem
      have himg : (if sess.sock == fd then { sess with alive := false } else sess) = deadE fd := by
        rw [if_pos (by simp [hsock])]
        simp [deadE, hsock, hdisp]
      dsimp only at hmem2
      rw [himg] at hmem2
      exact hmem2
    have hInv3 := vidInv_run cfg ls' _ hInv2
    have hdead3 := dead_frozen_run cfg ls' _ hInv2 fd hdead
    obtain ⟨hnd3, hlt3, hcur3, hcnt3, hnone3⟩ := hInv3
    obtain ⟨hA3, hE3⟩ := hcnt3 (deadE fd) hdead3
    simp [deadE] at hA3 hE3
    rw [closeCount_eq, totCount_split]
    omega

/-- Witness for the amended C4: after one accepted connection, a capture
failure of the current session closes its socket exactly once. -/
theorem C4_close_lifecycle_amended_witness :
    (({ sock := 0, alive := true, displaced := false } : VidSession) ∈
        (vidServerRun vidCfg0 (vidServerInit vidCfg0) [VidLabel.accept]).sessions ∧
      (vidServerRun vidCfg0 (vidServerInit vidCfg0) [VidLabel.accept]).current = some 0) ∧
    closeCount (vidServerRun vidCfg0
      (vidSessStep vidCfg0 (vidServerRun vidCfg0 (vidServerInit vidCfg0) [VidLabel.accept]) 0
        { capOut := none, sendSizeOk := true, sendDataOk := true }) []) 0 = 1 :=
  ⟨⟨by decide, by decide⟩,
   (C4_close_lifecycle_amended vidCfg0 [VidLabel.accept]).2.2 0
     { capOut := none, sendSizeOk := true, sendDataOk := true } []
     { sock := 0, alive := true, displaced := false } (by decide) rfl rfl (by decide) rfl⟩

end NlxVideoTransm
